import Mathlib

/-
  Verification of the tap CNI plugin (plugins/main/tap/tap.go) and its
  metadata store (pkg/dan/dan.go).

  The plugin's ADD/DEL verbs are shallowly embedded as pure functions over an
  explicit host network state.  External collaborators (netlink kernel calls,
  the delegated IPAM plugin, the filesystem) are modelled by a failure-injection
  environment: each kernel or delegate call that can fail in the source is
  given a corresponding injection point, while its state effect (link created,
  link deleted, address assigned, ...) is tracked explicitly.  Every operation
  performed by a verb is also recorded in an event trace, so ordering
  properties (rollback order, "allocator never invoked", ...) are statements
  about the trace.
-/

namespace TapPlugin

/-! ## String / CIDR parsing (models Go `net.ParseCIDR` for IPv4) -/

/-- Split a character list on a separator (models `strings.Split`). -/
def splitChar (sep : Char) : List Char → List (List Char)
  | [] => [[]]
  | c :: cs =>
    let r := splitChar sep cs
    if c = sep then [] :: r
    else
      match r with
      | [] => [[c]]
      | h :: t => (c :: h) :: t

/-- Accumulate a decimal number from digit characters; `none` on a non-digit. -/
def parseNatAux : List Char → Nat → Option Nat
  | [], acc => some acc
  | c :: cs, acc => if c.isDigit then parseNatAux cs (10 * acc + (c.toNat - 48)) else none

/-- Parse a non-empty all-digit character list as a decimal number. -/
def parseDec (cs : List Char) : Option Nat :=
  match cs with
  | [] => none
  | _ :: _ => parseNatAux cs 0

/-- Parse a dotted-quad IPv4 address into its 32-bit value. -/
def parseIPv4 (cs : List Char) : Option Nat :=
  match (splitChar '.' cs).map parseDec with
  | [some a, some b, some c, some d] =>
    if a ≤ 255 ∧ b ≤ 255 ∧ c ≤ 255 ∧ d ≤ 255 then
      some (((a * 256 + b) * 256 + c) * 256 + d)
    else none
  | _ => none

/-- Parse `a.b.c.d/n` into `(ip, prefixLen)`; models the successful outcomes
of Go `net.ParseCIDR` for IPv4 (first return value `ip`, prefix length `n`). -/
def parseCIDR (s : String) : Option (Nat × Nat) :=
  match splitChar '/' s.data with
  | [ipPart, lenPart] =>
    match parseIPv4 ipPart, parseDec lenPart with
    | some ip, some n => if n ≤ 32 then some (ip, n) else none
    | _, _ => none
  | _ => none

/-- The network base address: `ip` with its host bits zeroed.  Go
`net.ParseCIDR`'s second return value `*IPNet` has this as its `IP` field. -/
def maskNetwork (ip n : Nat) : Nat := (ip >>> (32 - n)) <<< (32 - n)

/-! ## Host network state -/

/-- Kind of a kernel link relevant to this plugin. -/
inductive LinkKind
  | bridge
  | tap
deriving DecidableEq

/-- One kernel link in the host network namespace. -/
structure Link where
  name : String
  kind : LinkKind
  master : Option String
  up : Bool
  addrs : List (Nat × Nat)
  hwAddr : String
deriving DecidableEq

/-- The host-side network namespace: the set of links, as an ordered list. -/
structure HostState where
  links : List Link
deriving DecidableEq

/-- Look a link up by name (models `netlink.LinkByName`'s found/not-found). -/
def findIn : List Link → String → Option Link
  | [], _ => none
  | l :: ls, n => if l.name = n then some l else findIn ls n

/-- Look a link up by name in a host state. -/
def findLink (st : HostState) (name : String) : Option Link :=
  findIn st.links name

/-- Remove every link of the given name. -/
def removeIn : List Link → String → List Link
  | [], _ => []
  | l :: ls, n => if l.name = n then removeIn ls n else l :: removeIn ls n

/-- Remove a link by name from the host state (models `netlink.LinkDel`). -/
def removeLink (st : HostState) (name : String) : HostState :=
  ⟨removeIn st.links name⟩

/-- Apply `f` to the link(s) of the given name. -/
def updateIn : List Link → String → (Link → Link) → List Link
  | [], _, _ => []
  | l :: ls, n, f => (if l.name = n then f l else l) :: updateIn ls n f

/-- Assign an additional address to a link (models `netlink.AddrAdd`). -/
def assignAddr (st : HostState) (name : String) (a : Nat × Nat) : HostState :=
  ⟨updateIn st.links name (fun l => ⟨l.name, l.kind, l.master, l.up, l.addrs ++ [a], l.hwAddr⟩)⟩

/-- Enslave a link to a master (models `netlink.LinkSetMaster`). -/
def setMaster (st : HostState) (name m : String) : HostState :=
  ⟨updateIn st.links name (fun l => ⟨l.name, l.kind, some m, l.up, l.addrs, l.hwAddr⟩)⟩

/-- Bring a link administratively up (models `netlink.LinkSetUp`). -/
def setLinkUp (st : HostState) (name : String) : HostState :=
  ⟨updateIn st.links name (fun l => ⟨l.name, l.kind, l.master, true, l.addrs, l.hwAddr⟩)⟩

/-! ## Events: the operations a verb performs, in order -/

/-- One externally visible operation performed by the plugin. -/
inductive Event
  | linkByName (name : String)
  | linkAddBridge (name : String)
  | addrAdd (name : String) (addr : Nat × Nat)
  | linkAddTap (name : String)
  | linkSetMaster (name m : String)
  | linkSetUp (name : String)
  | ipamExecAdd (ipamType : String)
  | ipamExecDel (ipamType : String)
  | delLink (name : String)
  | saveMeta (path : String)
deriving DecidableEq

/-- Boolean membership of an event in a trace. -/
def memEv (a : Event) : List Event → Bool
  | [] => false
  | e :: r => if e = a then true else memEv a r

/-- `occursBefore a b tr = true` iff some occurrence of `a` strictly precedes
an occurrence of `b` in `tr`. -/
def occursBefore (a b : Event) : List Event → Bool
  | [] => false
  | e :: r => if e = a then memEv b r else occursBefore a b r

/-- Every link-deletion event in the trace targets the given name. -/
def deletesOnly (name : String) (l : List Event) : Bool :=
  l.all (fun e => match e with
    | Event.delLink n => decide (n = name)
    | _ => true)

/-! ## Data model -/

/-- One IP configuration returned by the allocator
(models `current.IPConfig`: the fields the plugin reads or writes). -/
structure IPConfigM where
  address : Nat × Nat
  interface : Option Nat
deriving DecidableEq

/-- Models `current.Interface`: the fields the plugin populates. -/
structure CNIInterface where
  name : String
  mac : String
deriving DecidableEq

/-- Models the `current.Result` fields the plugin populates. -/
structure CNIResult where
  interfaces : List CNIInterface
  ips : List IPConfigM
  annotations : List (String × String)
deriving DecidableEq

/-- Parsed plugin configuration (models `NetConf` in tap.go: the embedded
`types.NetConf` contributes `CNIVersion` and `IPAM.Type`). -/
structure NetConf where
  cniVersion : String
  bridge : String
  bridgeIP : String
  ipamType : String
deriving DecidableEq

/-! ## Failure-injection environments -/

/-- How a kernel `LinkDel` step of `ip.DelLinkByName` can fail. -/
inductive DelErr
  | notFound
  | nsPathNotExist
  | otherErr
deriving DecidableEq

/-- Environment for one ADD invocation: injected outcomes of the external
kernel and delegate calls the source makes. -/
structure AddEnv where
  bridgeLookupErr : Bool
  bridgeAddFail : Bool
  addrAddErr : Bool
  tapAddFail : Bool
  setMasterFail : Bool
  refetchFail : Bool
  setUpFail : Bool
  hwAddr : String
  ipamAddResult : Except String (List IPConfigM)
  convertFail : Bool
  linkDelErr : Option DelErr

/-- Environment for one DEL invocation. -/
structure DelEnv where
  ipamDelErr : Bool
  linkDelErr : Option DelErr

/-! ## `ip.DelLinkByName`: look the link up, then delete it -/

/-- Models `ip.DelLinkByName`: `LinkByName` then `LinkDel`.  A missing link
yields `ErrLinkNotFound`; an injected error models a failing `LinkDel`. -/
def delLinkByName (inj : Option DelErr) (st : HostState) (name : String) :
    Option DelErr × HostState × List Event :=
  if (findLink st name).isSome then
    match inj with
    | some e => (some e, st, [Event.delLink name])
    | none => (none, removeLink st name, [Event.delLink name])
  else (some DelErr.notFound, st, [Event.delLink name])

/-! ## ADD -/

deriving instance DecidableEq for Except

/-- Errors `cmdAdd` can return, one per `return`ing failure site. -/
inductive AddError
  | configParse
  | ipamTypeMissing
  | bridgeFetch
  | bridgeCreate
  | bridgeIPParse
  | addrAssign
  | tapCreate
  | bindMaster
  | refetch
  | activate
  | ipamAdd (msg : String)
  | convert
  | emptyIPs
deriving DecidableEq

/-- Outcome of one ADD invocation: the returned result or error, the final
host state, and the trace of operations performed. -/
structure AddOut where
  result : Except AddError CNIResult
  state : HostState
  trace : List Event
deriving DecidableEq

/-- Models tap.go lines 56-85: look the bridge up by name; when not found,
create it and assign the (masked) parsed `bridgeIP` network to it.  The
address assigned is `ipv4Net`, the second return of `net.ParseCIDR`, whose IP
is the network base address (host bits zeroed). -/
def ensureBridge (env : AddEnv) (conf : NetConf) (st : HostState) :
    Option AddError × HostState × List Event :=
  let tr := [Event.linkByName conf.bridge]
  if env.bridgeLookupErr then (some AddError.bridgeFetch, st, tr)
  else if (findLink st conf.bridge).isSome then (none, st, tr)
  else
    let tr := tr ++ [Event.linkAddBridge conf.bridge]
    if env.bridgeAddFail then (some AddError.bridgeCreate, st, tr)
    else
      let st : HostState := ⟨st.links ++ [⟨conf.bridge, LinkKind.bridge, none, false, [], ""⟩]⟩
      match parseCIDR conf.bridgeIP with
      | none => (some AddError.bridgeIPParse, st, tr)
      | some (ip, n) =>
        let netAddr := (maskNetwork ip n, n)
        let tr := tr ++ [Event.addrAdd conf.bridge netAddr]
        if env.addrAddErr then (some AddError.addrAssign, st, tr)
        else (none, assignAddr st conf.bridge netAddr, tr)

/-- Models tap.go lines 87-116, the steps after the bridge is ensured:
create the tap (the kernel rejects a duplicate link name), enslave it to the
bridge, re-fetch it to read the kernel-assigned hardware address, bring it
up.  Note that no failure branch deletes anything: each error returns with
the state as it stands.  The trace returned is of this phase only. -/
def tapPhase (env : AddEnv) (conf : NetConf) (ifName : String) (st1 : HostState) :
    Except AddError CNIInterface × HostState × List Event :=
  let tr := [Event.linkAddTap ifName]
  if env.tapAddFail ∨ (findLink st1 ifName).isSome then (Except.error AddError.tapCreate, st1, tr)
  else
    let st2 : HostState := ⟨st1.links ++ [⟨ifName, LinkKind.tap, none, false, [], env.hwAddr⟩]⟩
    let tr := tr ++ [Event.linkSetMaster ifName conf.bridge]
    if env.setMasterFail then (Except.error AddError.bindMaster, st2, tr)
    else
      let st3 := setMaster st2 ifName conf.bridge
      let tr := tr ++ [Event.linkByName ifName]
      if env.refetchFail ∨ (findLink st3 ifName).isNone then
        (Except.error AddError.refetch, st3, tr)
      else
        let mac := ((findLink st3 ifName).map Link.hwAddr).getD ""
        let tr := tr ++ [Event.linkSetUp ifName]
        if env.setUpFail then (Except.error AddError.activate, st3, tr)
        else (Except.ok ⟨ifName, mac⟩, setLinkUp st3 ifName, tr)

/-- Models `createTapInterface` (tap.go lines 52-117): ensure the bridge,
then run the tap creation/bind/activation phase. -/
def createTapInterface (env : AddEnv) (conf : NetConf) (ifName : String) (st : HostState) :
    Except AddError CNIInterface × HostState × List Event :=
  match ensureBridge env conf st with
  | (some e, st1, tr1) => (Except.error e, st1, tr1)
  | (none, st1, tr1) =>
    let p := tapPhase env conf ifName st1
    (p.1, p.2.1, tr1 ++ p.2.2)

/-- The deterministic metadata path (tap.go line 142:
`fmt.Sprintf("/tmp/dans/tap/%s.json", hostTapName)`). -/
def metaFilePath (dev : String) : String := "/tmp/dans/tap/" ++ dev ++ ".json"

/-- Models cmdAdd from the IPAM delegation on (tap.go lines 141-193),
with the deferred functions inlined at each exit in their LIFO execution
order: the `ipam.ExecDel`-on-error defer (registered last) runs first, then
the `ip.DelLinkByName`-on-error defer, then the unconditional metadata save.
The returned error is the one live at the `return` statement: the deferred
assignment to the local `err` does not change the (unnamed) return value.

Both cleanup defers guard on the captured local `err` being non-nil.  On the
`ipam.ExecAdd` failure path (tap.go:155-158) and on the conversion failure
path (tap.go:168-171) `err` was assigned the failure, so the registered
cleanups fire.  On the empty-allocation path (tap.go:173-175) the error is
produced by `return errors.New(...)` WITHOUT being assigned to the local
`err`, which is nil there (set by the successful `NewResultFromResult`), so
neither `ipam.ExecDel` nor `ip.DelLinkByName` runs: only the unconditional
metadata save does. -/
def addPostCreate (env : AddEnv) (conf : NetConf) (tapIntf : CNIInterface) (st : HostState) :
    AddOut :=
  let metaFile := metaFilePath "tap0"
  match env.ipamAddResult with
  | Except.error msg =>
    let d := delLinkByName env.linkDelErr st "tap0"
    ⟨Except.error (AddError.ipamAdd msg), d.2.1,
      [Event.ipamExecAdd conf.ipamType] ++ d.2.2 ++ [Event.saveMeta metaFile]⟩
  | Except.ok ips =>
    if env.convertFail then
      let d := delLinkByName env.linkDelErr st "tap0"
      ⟨Except.error AddError.convert, d.2.1,
        [Event.ipamExecAdd conf.ipamType, Event.ipamExecDel conf.ipamType]
          ++ d.2.2 ++ [Event.saveMeta metaFile]⟩
    else if ips.isEmpty then
      ⟨Except.error AddError.emptyIPs, st,
        [Event.ipamExecAdd conf.ipamType, Event.saveMeta metaFile]⟩
    else
      let boundIPs := ips.map (fun ipc => ⟨ipc.address, some 0⟩)
      ⟨Except.ok ⟨[tapIntf], boundIPs, [("metafile", metaFile)]⟩, st,
        [Event.ipamExecAdd conf.ipamType, Event.saveMeta metaFile]⟩

/-- Models `cmdAdd` (tap.go lines 119-194).  `parsed` is the outcome of
`parseNetConf` on the stdin bytes (`none` on a JSON parse failure).  Failure
paths up to and including `createTapInterface` return before any cleanup
defer is registered. -/
def cmdAdd (env : AddEnv) (parsed : Option NetConf) (st : HostState) : AddOut :=
  match parsed with
  | none => ⟨Except.error AddError.configParse, st, []⟩
  | some conf =>
    if conf.ipamType = "" then ⟨Except.error AddError.ipamTypeMissing, st, []⟩
    else
      match createTapInterface env conf "tap0" st with
      | (Except.error e, st1, tr1) => ⟨Except.error e, st1, tr1⟩
      | (Except.ok tapIntf, st1, tr1) =>
        let post := addPostCreate env conf tapIntf st1
        ⟨post.result, post.state, tr1 ++ post.trace⟩

/-! ## DEL -/

/-- Errors `cmdDel` can return. -/
inductive DelError
  | configParse
  | ipamDel
  | linkTeardown
deriving DecidableEq

/-- Outcome of one DEL invocation. -/
structure DelOut where
  err : Option DelError
  state : HostState
  trace : List Event
deriving DecidableEq

/-- Models `cmdDel` (tap.go lines 196-230): release the delegate allocation
first, surfacing its failure; then delete the fixed device `tap0`, treating
`ErrLinkNotFound` and `ns.NSPathNotExistErr` as success and surfacing any
other deletion failure. -/
def cmdDel (parsed : Option NetConf) (env : DelEnv) (st : HostState) : DelOut :=
  match parsed with
  | none => ⟨some DelError.configParse, st, []⟩
  | some conf =>
    let tr := [Event.ipamExecDel conf.ipamType]
    if env.ipamDelErr then ⟨some DelError.ipamDel, st, tr⟩
    else
      let d := delLinkByName env.linkDelErr st "tap0"
      match d.1 with
      | none => ⟨none, d.2.1, tr ++ d.2.2⟩
      | some DelErr.notFound => ⟨none, d.2.1, tr ++ d.2.2⟩
      | some DelErr.nsPathNotExist => ⟨none, d.2.1, tr ++ d.2.2⟩
      | some DelErr.otherErr => ⟨some DelError.linkTeardown, d.2.1, tr ++ d.2.2⟩

/-! ## Metadata store (pkg/dan/dan.go) -/

/-- A filesystem operation performed by the metadata store. -/
inductive FsOp
  | mkdirAll (path : String) (mode : Nat)
  | writeFile (path : String) (mode : Nat) (prettyJSON : Bool)
deriving DecidableEq

/-- Models `filepath.Dir` on the cleaned, slash-containing paths used here:
everything before the final `/`. -/
def dirOf (s : String) : String :=
  match s.data.reverse.dropWhile (fun c => !(c == '/')) with
  | [] => "."
  | _ :: rest => ⟨rest.reverse⟩

/-- Models `DirectAttachableNetwork.Save` (dan.go lines 63-70): pretty-print
the record with `json.MarshalIndent`, `os.MkdirAll(filepath.Dir(metaFile),
0755)`, then `os.WriteFile(metaFile, body, 0644)`. -/
def danSave (metaFile : String) : List FsOp :=
  [FsOp.mkdirAll (dirOf metaFile) 0o755, FsOp.writeFile metaFile 0o644 true]

/-! ## Concrete fixtures (Scenario A of the spec and variations) -/

/-- Scenario A configuration: bridge `br-test`, bridgeIP `10.0.0.1/24`,
delegate IPAM type `static`.  `10.0.0.1` is the 32-bit value 167772161;
`10.0.0.0` is 167772160. -/
def confA : NetConf := ⟨"1.0.0", "br-test", "10.0.0.1/24", "static"⟩

/-- Scenario A configuration with an empty bridge name. -/
def confNoBridge : NetConf := ⟨"1.0.0", "", "10.0.0.1/24", "static"⟩

/-- Empty host state: no links. -/
def st0 : HostState := ⟨[]⟩

/-- Host state in which the configured bridge already exists, carrying
`10.0.0.0/24`. -/
def stBr : HostState := ⟨[⟨"br-test", LinkKind.bridge, none, false, [(167772160, 24)], ""⟩]⟩

/-- Environment where every external call succeeds and the allocator returns
one address. -/
def envOkA : AddEnv :=
  ⟨false, false, false, false, false, false, false, "aa:bb:cc:dd:ee:01",
    Except.ok [⟨(167772170, 24), none⟩], false, none⟩

/-- Environment where the kernel rejects binding the tap to the bridge
(`netlink.LinkSetMaster` fails); everything else would succeed. -/
def envBindFail : AddEnv :=
  ⟨false, false, false, false, true, false, false, "aa:bb:cc:dd:ee:01",
    Except.ok [⟨(167772170, 24), none⟩], false, none⟩

/-- Environment where the kernel rejects creating the bridge link. -/
def envBrAddFail : AddEnv :=
  ⟨false, true, false, false, false, false, false, "aa:bb:cc:dd:ee:01",
    Except.ok [⟨(167772170, 24), none⟩], false, none⟩

/-- Environment where the allocator returns zero IP configurations. -/
def envEmptyAlloc : AddEnv :=
  ⟨false, false, false, false, false, false, false, "aa:bb:cc:dd:ee:01",
    Except.ok [], false, none⟩

/-- Environment where the allocator succeeds but converting its result to the
current result type (`current.NewResultFromResult`) fails. -/
def envConvertFail : AddEnv :=
  ⟨false, false, false, false, false, false, false, "aa:bb:cc:dd:ee:01",
    Except.ok [⟨(167772170, 24), none⟩], true, none⟩

/-- Environment where the allocator's allocation call itself fails. -/
def envAllocFail : AddEnv :=
  ⟨false, false, false, false, false, false, false, "aa:bb:cc:dd:ee:01",
    Except.error "no IP addresses available", false, none⟩

/-- Boolean "the Except value is `ok`". -/
def exceptOk {ε α : Type} : Except ε α → Bool
  | Except.ok _ => true
  | Except.error _ => false

/-- Events that `createTapInterface` can emit: pure link-provisioning
operations, never a deletion, an allocator call, or a metadata save. -/
def provisioningEv : Event → Bool
  | Event.linkByName _ => true
  | Event.linkAddBridge _ => true
  | Event.addrAdd _ _ => true
  | Event.linkAddTap _ => true
  | Event.linkSetMaster _ _ => true
  | Event.linkSetUp _ => true
  | _ => false

/-- Is the event a bridge-creation operation? -/
def isBridgeAdd : Event → Bool
  | Event.linkAddBridge _ => true
  | _ => false

/-- Events the tap creation/bind/activation phase can emit. -/
def tapEv : Event → Bool
  | Event.linkAddTap _ => true
  | Event.linkSetMaster _ _ => true
  | Event.linkByName _ => true
  | Event.linkSetUp _ => true
  | _ => false

/-- Scenario A configuration with an empty IPAM type. -/
def confNoIpam : NetConf := ⟨"1.0.0", "br-test", "10.0.0.1/24", ""⟩

/-- Host state with the bridge and a live tap device. -/
def stTap : HostState :=
  ⟨[⟨"br-test", LinkKind.bridge, none, false, [(167772160, 24)], ""⟩,
    ⟨"tap0", LinkKind.tap, some "br-test", true, [], "aa:bb:cc:dd:ee:01"⟩]⟩

/-- DEL environment where release and deletion both succeed. -/
def envDelOk : DelEnv := ⟨false, none⟩

/-! ## Helper lemmas: traces -/

theorem memEv_append (a : Event) (l r : List Event) :
    memEv a (l ++ r) = (memEv a l || memEv a r) := by
  induction l with
  | nil => simp [memEv]
  | cons e t ih => by_cases h : e = a <;> simp [memEv, h, ih]

theorem memEv_false_of_all (p : Event → Bool) (a : Event) (l : List Event)
    (hl : l.all p = true) (ha : p a = false) : memEv a l = false := by
  induction l with
  | nil => rfl
  | cons e t ih =>
    simp only [List.all_cons, Bool.and_eq_true] at hl
    have hne : e ≠ a := by
      intro he
      rw [he, ha] at hl
      exact Bool.false_ne_true hl.1
    simp [memEv, hne, ih hl.2]

theorem occursBefore_append_left (a b : Event) (l r : List Event)
    (h : memEv a l = false) : occursBefore a b (l ++ r) = occursBefore a b r := by
  induction l with
  | nil => rfl
  | cons e t ih =>
    by_cases he : e = a
    · rw [memEv, if_pos he] at h
      exact absurd h (by simp)
    · rw [memEv, if_neg he] at h
      rw [List.cons_append, occursBefore, if_neg he]
      exact ih h

theorem occursBefore_false_of_not_mem (a b : Event) (l : List Event)
    (h : memEv a l = false) : occursBefore a b l = false := by
  induction l with
  | nil => rfl
  | cons e t ih =>
    by_cases he : e = a
    · rw [memEv, if_pos he] at h
      exact absurd h (by simp)
    · rw [memEv, if_neg he] at h
      rw [occursBefore, if_neg he]
      exact ih h

theorem deletesOnly_append (n : String) (l r : List Event) :
    deletesOnly n (l ++ r) = (deletesOnly n l && deletesOnly n r) := by
  unfold deletesOnly
  exact List.all_append

theorem deletesOnly_of_provisioning (n : String) (l : List Event)
    (h : l.all provisioningEv = true) : deletesOnly n l = true := by
  induction l with
  | nil => rfl
  | cons e t ih =>
    simp only [List.all_cons, Bool.and_eq_true] at h
    unfold deletesOnly at ih ⊢
    rw [List.all_cons]
    cases e <;> simp_all [provisioningEv]

/-! ## Helper lemmas: link-table operations -/

theorem findIn_append_left (ls ms : List Link) (n : String)
    (h : (findIn ls n).isSome = true) : findIn (ls ++ ms) n = findIn ls n := by
  induction ls with
  | nil => simp [findIn] at h
  | cons l t ih =>
    by_cases hl : l.name = n
    · simp [findIn, hl]
    · rw [findIn, if_neg hl] at h
      rw [List.cons_append, findIn, if_neg hl, findIn, if_neg hl]
      exact ih h

theorem findIn_append_right (ls ms : List Link) (n : String)
    (h : findIn ls n = none) : findIn (ls ++ ms) n = findIn ms n := by
  induction ls with
  | nil => rfl
  | cons l t ih =>
    by_cases hl : l.name = n
    · rw [findIn, if_pos hl] at h
      exact absurd h (by simp)
    · rw [findIn, if_neg hl] at h
      rw [List.cons_append, findIn, if_neg hl]
      exact ih h

theorem findIn_remove_ne (ls : List Link) (n m : String) (h : m ≠ n) :
    findIn (removeIn ls n) m = findIn ls m := by
  induction ls with
  | nil => rfl
  | cons l t ih =>
    by_cases hl : l.name = n
    · rw [removeIn, if_pos hl, findIn, if_neg (by rw [hl]; exact fun e => h e.symm), ih]
    · rw [removeIn, if_neg hl, findIn, findIn]
      split <;> simp [ih]

theorem findIn_remove_self (ls : List Link) (n : String) :
    findIn (removeIn ls n) n = none := by
  induction ls with
  | nil => rfl
  | cons l t ih =>
    by_cases hl : l.name = n
    · rw [removeIn, if_pos hl]; exact ih
    · rw [removeIn, if_neg hl, findIn, if_neg hl]; exact ih

theorem findIn_update_ne (ls : List Link) (n m : String) (f : Link → Link)
    (hf : ∀ l, (f l).name = l.name) (h : m ≠ n) :
    findIn (updateIn ls n f) m = findIn ls m := by
  induction ls with
  | nil => rfl
  | cons l t ih =>
    by_cases hl : l.name = n
    · rw [updateIn, if_pos hl, findIn, if_neg (by rw [hf l, hl]; exact fun e => h e.symm),
        findIn, if_neg (by rw [hl]; exact fun e => h e.symm)]
      exact ih
    · rw [updateIn, if_neg hl, findIn, findIn]
      split <;> simp [ih]

theorem findIn_update_self (ls : List Link) (n : String) (f : Link → Link)
    (hf : ∀ l, (f l).name = l.name) :
    findIn (updateIn ls n f) n = (findIn ls n).map f := by
  induction ls with
  | nil => rfl
  | cons l t ih =>
    by_cases hl : l.name = n
    · rw [updateIn, if_pos hl, findIn, if_pos (by rw [hf l]; exact hl), findIn, if_pos hl]
      rfl
    · rw [updateIn, if_neg hl, findIn, if_neg hl, findIn, if_neg hl]
      exact ih

theorem delLinkByName_trace (inj : Option DelErr) (st : HostState) (n : String) :
    (delLinkByName inj st n).2.2 = [Event.delLink n] := by
  unfold delLinkByName
  split
  · cases inj <;> rfl
  · rfl

theorem delLinkByName_removes (inj : Option DelErr) (st : HostState) (n : String)
    (h : inj = none) : findIn (delLinkByName inj st n).2.1.links n = none := by
  subst h
  unfold delLinkByName
  by_cases hs : (findLink st n).isSome
  · rw [if_pos hs]
    exact findIn_remove_self st.links n
  · rw [if_neg hs]
    cases hfl : findLink st n with
    | none => exact hfl
    | some l => rw [hfl] at hs; exact absurd rfl hs

theorem delLinkByName_preserves (inj : Option DelErr) (st : HostState) (n m : String)
    (h : m ≠ n) : findIn (delLinkByName inj st n).2.1.links m = findIn st.links m := by
  unfold delLinkByName
  split
  · cases inj
    · exact findIn_remove_ne st.links n m h
    · rfl
  · rfl

/-! ## Helper lemmas: the ADD pipeline -/

theorem provisioningEv_linkByName (n : String) :
    provisioningEv (Event.linkByName n) = true := rfl

theorem provisioningEv_linkAddBridge (n : String) :
    provisioningEv (Event.linkAddBridge n) = true := rfl

theorem provisioningEv_addrAdd (n : String) (a : Nat × Nat) :
    provisioningEv (Event.addrAdd n a) = true := rfl

theorem provisioningEv_linkAddTap (n : String) :
    provisioningEv (Event.linkAddTap n) = true := rfl

theorem provisioningEv_linkSetMaster (n m : String) :
    provisioningEv (Event.linkSetMaster n m) = true := rfl

theorem provisioningEv_linkSetUp (n : String) :
    provisioningEv (Event.linkSetUp n) = true := rfl

attribute [simp] provisioningEv_linkByName provisioningEv_linkAddBridge
  provisioningEv_addrAdd provisioningEv_linkAddTap provisioningEv_linkSetMaster
  provisioningEv_linkSetUp

theorem ensureBridge_trace_provisioning (env : AddEnv) (conf : NetConf) (st : HostState) :
    ((ensureBridge env conf st).2.2).all provisioningEv = true := by
  unfold ensureBridge
  (repeat' split) <;> simp [List.all_append]

theorem findIn_append_single_ne (ls : List Link) (l : Link) (m : String) (h : l.name ≠ m) :
    findIn (ls ++ [l]) m = findIn ls m := by
  induction ls with
  | nil => simp [findIn, h]
  | cons x t ih =>
    rw [List.cons_append, findIn, findIn]
    split <;> simp [ih]

/-- The complete frame facts of the tap phase: (1) its trace holds only
tap-phase events, (2) it never touches a link named differently from the tap
it creates, (3) it only succeeds when no link of the tap's name pre-existed,
and (4) if a link of the tap's name pre-exists it fails immediately with the
state unchanged. -/
theorem tapPhase_frame (env : AddEnv) (conf : NetConf) (ifName : String) (st1 : HostState) :
    ((tapPhase env conf ifName st1).2.2.all tapEv = true) ∧
    (∀ m, m ≠ ifName → findIn (tapPhase env conf ifName st1).2.1.links m = findIn st1.links m) ∧
    (exceptOk (tapPhase env conf ifName st1).1 = true → findIn st1.links ifName = none) ∧
    ((findLink st1 ifName).isSome = true →
      tapPhase env conf ifName st1 =
        (Except.error AddError.tapCreate, st1, [Event.linkAddTap ifName])) := by
  simp only [tapPhase]
  by_cases h1 : env.tapAddFail = true ∨ (findLink st1 ifName).isSome = true
  · rw [if_pos h1]
    exact ⟨by simp [tapEv], fun m _ => rfl, by simp [exceptOk], fun _ => rfl⟩
  · rw [if_neg h1]
    push_neg at h1
    obtain ⟨_, hs⟩ := h1
    have hnone : findIn st1.links ifName = none := by
      cases hfi : findLink st1 ifName with
      | none => exact hfi
      | some l => rw [hfi] at hs; exact absurd rfl hs
    have hno2 : (findLink st1 ifName).isSome ≠ true := by
      intro hcon
      rw [show findLink st1 ifName = findIn st1.links ifName from rfl, hnone] at hcon
      exact Bool.false_ne_true hcon
    by_cases h2 : env.setMasterFail = true
    · rw [if_pos h2]
      refine ⟨by simp [tapEv], fun m hm => ?_, by simp [exceptOk], fun hcon => absurd hcon hno2⟩
      exact findIn_append_single_ne st1.links _ m (fun e => hm e.symm)
    · rw [if_neg h2]
      have hfl : findLink
          (setMaster ⟨st1.links ++ [⟨ifName, LinkKind.tap, none, false, [], env.hwAddr⟩]⟩
            ifName conf.bridge) ifName =
          some ⟨ifName, LinkKind.tap, some conf.bridge, false, [], env.hwAddr⟩ := by
        show findIn (updateIn _ ifName
          (fun l => ⟨l.name, l.kind, some conf.bridge, l.up, l.addrs, l.hwAddr⟩)) ifName = _
        rw [findIn_update_self _ _
            (fun l => ⟨l.name, l.kind, some conf.bridge, l.up, l.addrs, l.hwAddr⟩)
            (fun l => rfl),
          show findIn (st1.links ++ [⟨ifName, LinkKind.tap, none, false, [], env.hwAddr⟩]) ifName
              = findIn [⟨ifName, LinkKind.tap, none, false, [], env.hwAddr⟩] ifName from
            findIn_append_right _ _ _ hnone]
        rw [findIn, if_pos rfl]
        rfl
      rw [hfl]
      simp only [Option.isNone_some, Bool.false_eq_true, or_false]
      have hpres : ∀ m, m ≠ ifName →
          findIn (setMaster ⟨st1.links ++ [⟨ifName, LinkKind.tap, none, false, [], env.hwAddr⟩]⟩
            ifName conf.bridge).links m = findIn st1.links m := by
        intro m hm
        show findIn (updateIn _ ifName
          (fun l => ⟨l.name, l.kind, some conf.bridge, l.up, l.addrs, l.hwAddr⟩)) m = _
        rw [findIn_update_ne _ _ _
            (fun l => ⟨l.name, l.kind, some conf.bridge, l.up, l.addrs, l.hwAddr⟩)
            (fun l => rfl) hm]
        exact findIn_append_single_ne st1.links _ m (fun e => hm e.symm)
      by_cases h3 : env.refetchFail = true
      · rw [if_pos h3]
        exact ⟨by simp [tapEv], hpres, by simp [exceptOk], fun hcon => absurd hcon hno2⟩
      · rw [if_neg h3]
        by_cases h4 : env.setUpFail = true
        · rw [if_pos h4]
          exact ⟨by simp [tapEv], hpres, by simp [exceptOk], fun hcon => absurd hcon hno2⟩
        · rw [if_neg h4]
          refine ⟨by simp [tapEv], fun m hm => ?_, fun _ => hnone, fun hcon => absurd hcon hno2⟩
          show findIn (updateIn _ ifName
            (fun l => ⟨l.name, l.kind, l.master, true, l.addrs, l.hwAddr⟩)) m = _
          rw [findIn_update_ne _ _ _
              (fun l => ⟨l.name, l.kind, l.master, true, l.addrs, l.hwAddr⟩)
              (fun l => rfl) hm]
          exact hpres m hm

theorem all_tapEv_provisioning (l : List Event) (h : l.all tapEv = true) :
    l.all provisioningEv = true := by
  induction l with
  | nil => rfl
  | cons e t ih =>
    simp only [List.all_cons, Bool.and_eq_true] at h ⊢
    refine ⟨?_, ih h.2⟩
    cases e <;> simp_all [tapEv]

theorem createTapInterface_trace_provisioning (env : AddEnv) (conf : NetConf) (ifName : String)
    (st : HostState) :
    ((createTapInterface env conf ifName st).2.2).all provisioningEv = true := by
  have hb := ensureBridge_trace_provisioning env conf st
  unfold createTapInterface
  rcases hE : ensureBridge env conf st with ⟨o, st1, tr1⟩
  rw [hE] at hb
  cases o with
  | some e => exact hb
  | none =>
    show (tr1 ++ (tapPhase env conf ifName st1).2.2).all provisioningEv = true
    rw [List.all_append]
    rw [show tr1.all provisioningEv = true from hb,
      all_tapEv_provisioning _ (tapPhase_frame env conf ifName st1).1]
    rfl

theorem cmdAdd_err_create (env : AddEnv) (conf : NetConf) (st : HostState)
    (e : AddError) (st1 : HostState) (tr1 : List Event)
    (hip : ¬conf.ipamType = "")
    (hc : createTapInterface env conf "tap0" st = (Except.error e, st1, tr1)) :
    cmdAdd env (some conf) st = ⟨Except.error e, st1, tr1⟩ := by
  simp only [cmdAdd]
  rw [if_neg hip, hc]

theorem cmdAdd_ok_create (env : AddEnv) (conf : NetConf) (st : HostState)
    (t : CNIInterface) (st1 : HostState) (tr1 : List Event)
    (hip : ¬conf.ipamType = "")
    (hc : createTapInterface env conf "tap0" st = (Except.ok t, st1, tr1)) :
    cmdAdd env (some conf) st =
      ⟨(addPostCreate env conf t st1).result, (addPostCreate env conf t st1).state,
        tr1 ++ (addPostCreate env conf t st1).trace⟩ := by
  simp only [cmdAdd]
  rw [if_neg hip, hc]

theorem addPostCreate_trace_save (env : AddEnv) (conf : NetConf) (t : CNIInterface)
    (st : HostState) :
    memEv (Event.saveMeta (metaFilePath "tap0")) (addPostCreate env conf t st).trace = true := by
  unfold addPostCreate
  (repeat' split) <;> simp [delLinkByName_trace, memEv_append, memEv]

theorem addPostCreate_occursBefore (env : AddEnv) (conf : NetConf) (t : CNIInterface)
    (st : HostState) :
    occursBefore (Event.delLink "tap0") (Event.ipamExecDel conf.ipamType)
      (addPostCreate env conf t st).trace = false := by
  unfold addPostCreate
  (repeat' split) <;> simp [delLinkByName_trace, occursBefore, memEv]

theorem addPostCreate_deletesOnly (env : AddEnv) (conf : NetConf) (t : CNIInterface)
    (st : HostState) :
    deletesOnly "tap0" (addPostCreate env conf t st).trace = true := by
  unfold addPostCreate deletesOnly
  (repeat' split) <;> simp [delLinkByName_trace]

theorem addPostCreate_no_bridgeAdd (env : AddEnv) (conf : NetConf) (t : CNIInterface)
    (st : HostState) (x : String) :
    memEv (Event.linkAddBridge x) (addPostCreate env conf t st).trace = false := by
  unfold addPostCreate
  (repeat' split) <;> simp [delLinkByName_trace, memEv_append, memEv]

theorem addPostCreate_state_preserves (env : AddEnv) (conf : NetConf) (t : CNIInterface)
    (st : HostState) (m : String) (h : m ≠ "tap0") :
    findIn (addPostCreate env conf t st).state.links m = findIn st.links m := by
  unfold addPostCreate
  (repeat' split) <;> simp [delLinkByName_preserves, h]

theorem addPostCreate_alloc_fail (env : AddEnv) (conf : NetConf) (t : CNIInterface)
    (st : HostState) (msg : String)
    (ha : env.ipamAddResult = Except.error msg) (hd : env.linkDelErr = none) :
    (addPostCreate env conf t st).result = Except.error (AddError.ipamAdd msg) ∧
    findIn (addPostCreate env conf t st).state.links "tap0" = none := by
  unfold addPostCreate
  rw [ha]
  exact ⟨rfl, delLinkByName_removes _ _ _ hd⟩

theorem ensureBridge_preexisting (env : AddEnv) (conf : NetConf) (st : HostState)
    (h : (findLink st conf.bridge).isSome = true) :
    ensureBridge env conf st =
      ((if env.bridgeLookupErr then some AddError.bridgeFetch else none), st,
        [Event.linkByName conf.bridge]) := by
  unfold ensureBridge
  by_cases hl : env.bridgeLookupErr <;> simp [hl, h]

/-! ## Claim theorems -/

/-- Claim C1 (code bug witness): when binding the tap device to the bridge
fails, `cmdAdd` returns the bind error, but the tap device created in step 3
is NOT deleted — it remains in the host state, because the delete-on-error
defer of tap.go line 149 is registered only after `createTapInterface` has
already returned.  The Address Allocator is indeed never invoked, and no
deletion is even attempted.  So an ADD invocation failing at the bind step
does leave a host-side link behind, contradicting the claim. -/
theorem tap_not_deleted_on_bind_failure :
    (cmdAdd envBindFail (some confA) stBr).result = Except.error AddError.bindMaster ∧
    (findLink (cmdAdd envBindFail (some confA) stBr).state "tap0").isSome = true ∧
    memEv (Event.ipamExecAdd "static") (cmdAdd envBindFail (some confA) stBr).trace = false ∧
    memEv (Event.delLink "tap0") (cmdAdd envBindFail (some confA) stBr).trace = false := by
  decide

/-- Claim C5 (code bug witness): with Scenario A's `bridgeIP = "10.0.0.1/24"`
and the bridge absent, ADD creates the bridge but assigns it the masked
network base address `10.0.0.0/24` (value 167772160), not the configured
address `10.0.0.1/24` (value 167772161): tap.go line 73 discards the first
return of `net.ParseCIDR` and line 78 assigns the second (`ipv4Net`), whose
IP field has the host bits zeroed. -/
theorem bridge_gets_masked_network_not_bridgeIP :
    parseCIDR confA.bridgeIP = some (167772161, 24) ∧
    findLink (cmdAdd envOkA (some confA) st0).state "br-test" =
      some ⟨"br-test", LinkKind.bridge, none, false, [(167772160, 24)], ""⟩ ∧
    (167772160 : Nat) ≠ 167772161 := by
  decide

/-- Claim C2 counterexample: in the rollback triggered by a result-conversion
failure (tap.go:168-171, where the local `err` is assigned and both cleanup
defers therefore fire), the Address Allocator's release (`ipam.ExecDel`) runs
strictly BEFORE the tap-device deletion, not after it: the deferred cleanups
of tap.go lines 149 and 161 execute in reverse registration order. -/
theorem release_precedes_delete_counterexample :
    (cmdAdd envConvertFail (some confA) stBr).result = Except.error AddError.convert ∧
    occursBefore (Event.ipamExecDel "static") (Event.delLink "tap0")
      (cmdAdd envConvertFail (some confA) stBr).trace = true ∧
    occursBefore (Event.delLink "tap0") (Event.ipamExecDel "static")
      (cmdAdd envConvertFail (some confA) stBr).trace = false := by
  decide

/-- Claim C6 counterexample: with an empty bridge name (and a non-empty IPAM
type), ADD does NOT stop after configuration parsing: it proceeds into link
operations (`netlink.LinkByName ""` is invoked); tap.go checks only
`conf.IPAM.Type`, never `conf.Bridge`. -/
theorem empty_bridge_name_still_proceeds :
    confNoBridge.bridge = "" ∧
    memEv (Event.linkByName "") (cmdAdd envBrAddFail (some confNoBridge) st0).trace = true ∧
    memEv (Event.linkAddBridge "") (cmdAdd envBrAddFail (some confNoBridge) st0).trace = true := by
  decide

/-- Claim C9 counterexample: the record file is written with mode 0644
(decimal 420) and its directories with mode 0755 (decimal 493) — dan.go
lines 66 and 69 — so neither is restricted to the owner: group and others
retain read (and, for directories, traverse) access. -/
theorem save_perms_counterexample :
    danSave (metaFilePath "tap0") =
      [FsOp.mkdirAll "/tmp/dans/tap" 493, FsOp.writeFile "/tmp/dans/tap/tap0.json" 420 true] ∧
    (420 : Nat) ≠ 0o600 ∧ (493 : Nat) ≠ 0o700 := by
  decide

/-- Claim C9 (amended): the AttachmentRecord is pretty-printed JSON written
to the deterministic path `<base-dir>/<kind>/<host-device-name>.json`
(`/tmp/dans/tap/tap0.json`), with parent directories created as needed with
mode 0755 and the file written with mode 0644. -/
theorem save_path_and_modes :
    metaFilePath "tap0" = "/tmp/dans" ++ "/" ++ "tap" ++ "/" ++ "tap0" ++ ".json" ∧
    danSave (metaFilePath "tap0") =
      [FsOp.mkdirAll (dirOf (metaFilePath "tap0")) 0o755,
       FsOp.writeFile (metaFilePath "tap0") 0o644 true] ∧
    dirOf (metaFilePath "tap0") = "/tmp/dans/tap" := by
  decide

/-- Claim C2 (amended): in every failing ADD the deferred cleanups that do
fire run in reverse registration order, so the tap-device deletion never
precedes the Address Allocator's release in the trace (when both fire, as on
the conversion-failure path, the release comes strictly first; on the
empty-allocation path neither fires); and cleanup deletes only the fixed tap
device `tap0`, never any other link (in particular never the pre-existing
bridge, whose creation would have failed had it been named `tap0`). -/
theorem rollback_release_then_delete (env : AddEnv) (conf : NetConf) (st : HostState) :
    occursBefore (Event.delLink "tap0") (Event.ipamExecDel conf.ipamType)
      (cmdAdd env (some conf) st).trace = false ∧
    deletesOnly "tap0" (cmdAdd env (some conf) st).trace = true := by
  by_cases hip : conf.ipamType = ""
  · simp only [cmdAdd, if_pos hip]
    exact ⟨rfl, rfl⟩
  · rcases hc : createTapInterface env conf "tap0" st with ⟨r, st1, tr1⟩
    have hprov : tr1.all provisioningEv = true := by
      have hx := createTapInterface_trace_provisioning env conf "tap0" st
      rw [hc] at hx
      exact hx
    have hnodel : memEv (Event.delLink "tap0") tr1 = false :=
      memEv_false_of_all provisioningEv _ _ hprov rfl
    cases r with
    | error e =>
      rw [cmdAdd_err_create env conf st e st1 tr1 hip hc]
      exact ⟨occursBefore_false_of_not_mem _ _ _ hnodel,
        deletesOnly_of_provisioning _ _ hprov⟩
    | ok t =>
      rw [cmdAdd_ok_create env conf st t st1 tr1 hip hc]
      constructor
      · show occursBefore _ _ (tr1 ++ (addPostCreate env conf t st1).trace) = false
        rw [occursBefore_append_left _ _ _ _ hnodel]
        exact addPostCreate_occursBefore env conf t st1
      · show deletesOnly _ (tr1 ++ (addPostCreate env conf t st1).trace) = true
        rw [deletesOnly_append, deletesOnly_of_provisioning _ _ hprov,
          addPostCreate_deletesOnly]
        rfl

/-- Claim C3: whenever tap creation succeeded and the Address Allocator's
allocation call fails, ADD returns exactly that allocation error (the
deferred assignment to `err` does not change the unnamed return value) and
the host-side tap device has been deleted by the rollback (provided the
kernel deletion primitive itself does not fail). -/
theorem add_alloc_failure_cleanup (env : AddEnv) (conf : NetConf) (st : HostState) (msg : String)
    (hok : exceptOk (createTapInterface env conf "tap0" st).1 = true)
    (hip : conf.ipamType ≠ "")
    (ha : env.ipamAddResult = Except.error msg)
    (hd : env.linkDelErr = none) :
    (cmdAdd env (some conf) st).result = Except.error (AddError.ipamAdd msg) ∧
    findLink (cmdAdd env (some conf) st).state "tap0" = none := by
  rcases hc : createTapInterface env conf "tap0" st with ⟨r, st1, tr1⟩
  rw [hc] at hok
  cases r with
  | error e => exact absurd hok (by simp [exceptOk])
  | ok t =>
    rw [cmdAdd_ok_create env conf st t st1 tr1 hip hc]
    have hx := addPostCreate_alloc_fail env conf t st1 msg ha hd
    exact ⟨hx.1, hx.2⟩

/-- Claim C3 witness: a concrete run — tap creation succeeds against the
pre-existing bridge, the allocator fails, and afterwards `tap0` is gone and
the allocation error is returned. -/
theorem add_alloc_failure_cleanup_witness :
    exceptOk (createTapInterface envAllocFail confA "tap0" stBr).1 = true ∧
    confA.ipamType ≠ "" ∧
    envAllocFail.ipamAddResult = Except.error "no IP addresses available" ∧
    envAllocFail.linkDelErr = none ∧
    ((cmdAdd envAllocFail (some confA) stBr).result =
        Except.error (AddError.ipamAdd "no IP addresses available") ∧
      findLink (cmdAdd envAllocFail (some confA) stBr).state "tap0" = none) :=
  ⟨by decide, by decide, rfl, rfl,
    add_alloc_failure_cleanup envAllocFail confA stBr "no IP addresses available"
      (by decide) (by decide) rfl rfl⟩

/-- Claim C4 (code bug witness): on an allocator response with zero IP
configurations, ADD does fail, but the tap device is NOT removed and the
Address Allocator's release is NOT invoked: tap.go:174 returns a fresh error
(`return errors.New(...)`) without assigning the local `err`, which is nil
at that point, so both cleanup defers (tap.go:149-153, 161-165) skip.  The
tap device and the allocated addresses both leak; only the unconditional
metadata save runs. -/
theorem empty_allocation_leaks_tap :
    (cmdAdd envEmptyAlloc (some confA) stBr).result = Except.error AddError.emptyIPs ∧
    (findLink (cmdAdd envEmptyAlloc (some confA) stBr).state "tap0").isSome = true ∧
    memEv (Event.ipamExecAdd "static") (cmdAdd envEmptyAlloc (some confA) stBr).trace = true ∧
    memEv (Event.ipamExecDel "static") (cmdAdd envEmptyAlloc (some confA) stBr).trace = false ∧
    memEv (Event.delLink "tap0") (cmdAdd envEmptyAlloc (some confA) stBr).trace = false := by
  decide

/-- Claim C6 (amended): ADD fails fast — before any link operation or
allocator call — exactly when parsing fails or the delegate IPAM type is
empty.  The bridge name is never validated (see the counterexample): an
empty bridge name does not prevent ADD from proceeding. -/
theorem add_failfast_ipam_check (env : AddEnv) (conf : NetConf) (st : HostState) :
    cmdAdd env none st = ⟨Except.error AddError.configParse, st, []⟩ ∧
    (conf.ipamType = "" →
      cmdAdd env (some conf) st = ⟨Except.error AddError.ipamTypeMissing, st, []⟩) := by
  refine ⟨rfl, fun hip => ?_⟩
  simp only [cmdAdd, if_pos hip]

/-- Claim C6 witness: concrete fail-fast run with an empty IPAM type. -/
theorem add_failfast_ipam_check_witness :
    confNoIpam.ipamType = "" ∧
    cmdAdd envOkA (some confNoIpam) st0 =
      ⟨Except.error AddError.ipamTypeMissing, st0, []⟩ :=
  ⟨rfl, (add_failfast_ipam_check envOkA confNoIpam st0).2 rfl⟩

/-- Claim C10: a metadata-record write is attempted exactly on the ADD
invocations in which `createTapInterface` returned successfully — including
those that later fail at allocation, conversion, or validation — and never
when parsing, the IPAM-type check, or tap-interface creation failed. -/
theorem save_attempt_iff_create_ok (env : AddEnv) (parsed : Option NetConf) (st : HostState) :
    memEv (Event.saveMeta (metaFilePath "tap0")) (cmdAdd env parsed st).trace =
      (match parsed with
       | none => false
       | some conf =>
         (!(conf.ipamType == "")) && exceptOk (createTapInterface env conf "tap0" st).1) := by
  cases parsed with
  | none => rfl
  | some conf =>
    by_cases hip : conf.ipamType = ""
    · simp only [cmdAdd, if_pos hip, hip]
      rfl
    · have hbeq : (conf.ipamType == "") = false := by
        cases hx : conf.ipamType == ""
        · rfl
        · exact absurd (eq_of_beq hx) hip
      show memEv (Event.saveMeta (metaFilePath "tap0")) (cmdAdd env (some conf) st).trace =
        ((!(conf.ipamType == "")) && exceptOk (createTapInterface env conf "tap0" st).1)
      rcases hc : createTapInterface env conf "tap0" st with ⟨r, st1, tr1⟩
      have hprov : tr1.all provisioningEv = true := by
        have hx := createTapInterface_trace_provisioning env conf "tap0" st
        rw [hc] at hx
        exact hx
      have hnosave : memEv (Event.saveMeta (metaFilePath "tap0")) tr1 = false :=
        memEv_false_of_all provisioningEv _ _ hprov rfl
      cases r with
      | error e =>
        rw [cmdAdd_err_create env conf st e st1 tr1 hip hc]
        show memEv _ tr1 = _
        rw [hnosave, hbeq]
        rfl
      | ok t =>
        rw [cmdAdd_ok_create env conf st t st1 tr1 hip hc]
        show memEv _ (tr1 ++ (addPostCreate env conf t st1).trace) = _
        rw [memEv_append, hnosave, addPostCreate_trace_save, hbeq]
        rfl

/-- Claim C7: if the configured bridge already exists when ADD starts, ADD
never deletes or recreates it, on every execution path including the failing
ones: the bridge's entry in the final host state is exactly its initial one,
and no bridge-creation operation appears in the trace. -/
theorem preexisting_bridge_preserved (env : AddEnv) (conf : NetConf) (st : HostState)
    (h : (findLink st conf.bridge).isSome = true) :
    findLink (cmdAdd env (some conf) st).state conf.bridge = findLink st conf.bridge ∧
    memEv (Event.linkAddBridge conf.bridge) (cmdAdd env (some conf) st).trace = false := by
  by_cases hip : conf.ipamType = ""
  · have hred : cmdAdd env (some conf) st =
        ⟨Except.error AddError.ipamTypeMissing, st, []⟩ := by
      simp only [cmdAdd, if_pos hip]
    rw [hred]
    exact ⟨rfl, rfl⟩
  · by_cases hl : env.bridgeLookupErr = true
    · have hcreate : createTapInterface env conf "tap0" st =
          (Except.error AddError.bridgeFetch, st, [Event.linkByName conf.bridge]) := by
        unfold createTapInterface
        rw [ensureBridge_preexisting env conf st h, if_pos hl]
      rw [cmdAdd_err_create env conf st _ _ _ hip hcreate]
      exact ⟨rfl, by simp [memEv]⟩
    · have hEB : ensureBridge env conf st = (none, st, [Event.linkByName conf.bridge]) := by
        rw [ensureBridge_preexisting env conf st h, if_neg hl]
      rcases hp : tapPhase env conf "tap0" st with ⟨r, st2, tr2⟩
      obtain ⟨hT1, hT2, hT3, hT4⟩ := tapPhase_frame env conf "tap0" st
      rw [hp] at hT1 hT2 hT3 hT4
      have hcreate : createTapInterface env conf "tap0" st =
          (r, st2, [Event.linkByName conf.bridge] ++ tr2) := by
        unfold createTapInterface
        rw [hEB]
        show ((tapPhase env conf "tap0" st).1, (tapPhase env conf "tap0" st).2.1,
          [Event.linkByName conf.bridge] ++ (tapPhase env conf "tap0" st).2.2) = _
        rw [hp]
      have hnoadd : memEv (Event.linkAddBridge conf.bridge) tr2 = false :=
        memEv_false_of_all tapEv _ _ hT1 rfl
      cases r with
      | error e =>
        rw [cmdAdd_err_create env conf st e st2 _ hip hcreate]
        constructor
        · by_cases hbr : conf.bridge = "tap0"
          · have hT4x := hT4 (by rw [← hbr]; exact h)
            have hst : st2 = st := congrArg (fun x => x.2.1) hT4x
            rw [hst]
          · exact hT2 conf.bridge hbr
        · show memEv _ ([Event.linkByName conf.bridge] ++ tr2) = false
          rw [memEv_append, hnoadd]
          simp [memEv]
      | ok t =>
        rw [cmdAdd_ok_create env conf st t st2 _ hip hcreate]
        have hbr : conf.bridge ≠ "tap0" := by
          intro e
          have hnone := hT3 rfl
          rw [e] at h
          rw [show findLink st "tap0" = findIn st.links "tap0" from rfl, hnone] at h
          exact Bool.false_ne_true h
        constructor
        · show findLink (addPostCreate env conf t st2).state conf.bridge = _
          show findIn (addPostCreate env conf t st2).state.links conf.bridge = _
          rw [addPostCreate_state_preserves env conf t st2 conf.bridge hbr]
          exact hT2 conf.bridge hbr
        · show memEv _ (([Event.linkByName conf.bridge] ++ tr2)
              ++ (addPostCreate env conf t st2).trace) = false
          rw [memEv_append, memEv_append, hnoadd, addPostCreate_no_bridgeAdd]
          simp [memEv]

theorem delLinkByName_absent (inj : Option DelErr) (st : HostState) (n : String)
    (hfl : findLink st n = none) :
    delLinkByName inj st n = (some DelErr.notFound, st, [Event.delLink n]) := by
  unfold delLinkByName
  rw [hfl]
  rfl

theorem delLinkByName_present_inj (inj : Option DelErr) (st : HostState) (n : String) (e : DelErr)
    (hs : (findLink st n).isSome = true) (hinj : inj = some e) :
    delLinkByName inj st n = (some e, st, [Event.delLink n]) := by
  unfold delLinkByName
  rw [if_pos hs, hinj]

theorem delLinkByName_present_ok (inj : Option DelErr) (st : HostState) (n : String)
    (hs : (findLink st n).isSome = true) (hinj : inj = none) :
    delLinkByName inj st n = (none, removeLink st n, [Event.delLink n]) := by
  unfold delLinkByName
  rw [if_pos hs, hinj]

theorem cmdDel_after_release (conf : NetConf) (env : DelEnv) (st : HostState)
    (hip : env.ipamDelErr = false)
    (o : Option DelErr) (st2 : HostState) (tr2 : List Event)
    (hdel : delLinkByName env.linkDelErr st "tap0" = (o, st2, tr2)) :
    cmdDel (some conf) env st =
      (match o with
       | some DelErr.otherErr =>
         ⟨some DelError.linkTeardown, st2, [Event.ipamExecDel conf.ipamType] ++ tr2⟩
       | _ => ⟨none, st2, [Event.ipamExecDel conf.ipamType] ++ tr2⟩) := by
  cases o with
  | none =>
    simp only [cmdDel]
    rw [if_neg (by rw [hip]; exact Bool.false_ne_true), hdel]
  | some e =>
    cases e <;>
    · simp only [cmdDel]
      rw [if_neg (by rw [hip]; exact Bool.false_ne_true), hdel]

/-- Claim C8: the DEL contract.  (1) DEL's first operation after parsing is
the Address Allocator's release; (2) a release failure is surfaced
immediately, before any deletion attempt; (3) DEL succeeds when the fixed
device `tap0` is already absent; (4) DEL succeeds when the namespace is gone
(`ns.NSPathNotExistErr`); (5) any other deletion failure is surfaced; and
(6) with working release and deletion, two successive DELs with the same
configuration both succeed. -/
theorem del_contract (conf : NetConf) (env : DelEnv) (st : HostState) :
    (cmdDel (some conf) env st).trace.head? = some (Event.ipamExecDel conf.ipamType) ∧
    (env.ipamDelErr = true →
      cmdDel (some conf) env st =
        ⟨some DelError.ipamDel, st, [Event.ipamExecDel conf.ipamType]⟩) ∧
    (env.ipamDelErr = false → findLink st "tap0" = none →
      (cmdDel (some conf) env st).err = none) ∧
    (env.ipamDelErr = false → env.linkDelErr = some DelErr.nsPathNotExist →
      (cmdDel (some conf) env st).err = none) ∧
    (env.ipamDelErr = false → env.linkDelErr = some DelErr.otherErr →
      (findLink st "tap0").isSome = true →
      (cmdDel (some conf) env st).err = some DelError.linkTeardown) ∧
    (env.ipamDelErr = false → env.linkDelErr = none →
      (cmdDel (some conf) env st).err = none ∧
      (cmdDel (some conf) env (cmdDel (some conf) env st).state).err = none) := by
  cases hip : env.ipamDelErr with
  | true =>
    have hred : cmdDel (some conf) env st =
        ⟨some DelError.ipamDel, st, [Event.ipamExecDel conf.ipamType]⟩ := by
      simp only [cmdDel]
      rw [if_pos hip]
    exact ⟨by rw [hred]; rfl, fun _ => hred,
      fun hf _ => absurd hf (by simp),
      fun hf _ => absurd hf (by simp),
      fun hf _ _ => absurd hf (by simp),
      fun hf _ => absurd hf (by simp)⟩
  | false =>
    have habs : ∀ st' : HostState, findLink st' "tap0" = none →
        cmdDel (some conf) env st' =
          ⟨none, st', [Event.ipamExecDel conf.ipamType, Event.delLink "tap0"]⟩ := by
      intro st' hfl
      rw [cmdDel_after_release conf env st' hip _ _ _
        (delLinkByName_absent env.linkDelErr st' "tap0" hfl)]
      rfl
    have hhead : (cmdDel (some conf) env st).trace.head? =
        some (Event.ipamExecDel conf.ipamType) := by
      rcases hdel : delLinkByName env.linkDelErr st "tap0" with ⟨o, st2, tr2⟩
      rw [cmdDel_after_release conf env st hip o st2 tr2 hdel]
      cases o with
      | none => rfl
      | some e => cases e <;> rfl
    refine ⟨hhead, fun hf => absurd hf (by simp), ?_, ?_, ?_, ?_⟩
    · intro _ hfl
      rw [habs st hfl]
    · intro _ hinj
      by_cases hs : (findLink st "tap0").isSome = true
      · rw [cmdDel_after_release conf env st hip _ _ _
          (delLinkByName_present_inj env.linkDelErr st "tap0" _ hs hinj)]
      · have hfl : findLink st "tap0" = none := by
          cases hx : findLink st "tap0" with
          | none => rfl
          | some l => rw [hx] at hs; exact absurd rfl hs
        rw [habs st hfl]
    · intro _ hinj hs
      rw [cmdDel_after_release conf env st hip _ _ _
        (delLinkByName_present_inj env.linkDelErr st "tap0" _ hs hinj)]
    · intro _ hinj
      by_cases hs : (findLink st "tap0").isSome = true
      · rw [cmdDel_after_release conf env st hip _ _ _
          (delLinkByName_present_ok env.linkDelErr st "tap0" hs hinj)]
        refine ⟨rfl, ?_⟩
        show (cmdDel (some conf) env (removeLink st "tap0")).err = none
        rw [habs (removeLink st "tap0") (findIn_remove_self st.links "tap0")]
      · have hfl : findLink st "tap0" = none := by
          cases hx : findLink st "tap0" with
          | none => rfl
          | some l => rw [hx] at hs; exact absurd rfl hs
        rw [habs st hfl]
        exact ⟨rfl, by rw [habs st hfl]⟩

/-- Claim C8 witness: with a live tap device, working release and deletion,
two successive DEL invocations both succeed. -/
theorem del_contract_witness :
    (cmdDel (some confA) envDelOk stTap).err = none ∧
    (cmdDel (some confA) envDelOk (cmdDel (some confA) envDelOk stTap).state).err = none :=
  (del_contract confA envDelOk stTap).2.2.2.2.2 rfl rfl

/-- Claim C7 witness: a successful Scenario A run against the pre-existing
bridge leaves the bridge exactly as it was, and never re-creates it. -/
theorem preexisting_bridge_preserved_witness :
    (findLink stBr confA.bridge).isSome = true ∧
    (findLink (cmdAdd envOkA (some confA) stBr).state confA.bridge = findLink stBr confA.bridge ∧
      memEv (Event.linkAddBridge confA.bridge) (cmdAdd envOkA (some confA) stBr).trace = false) :=
  ⟨by decide, preexisting_bridge_preserved envOkA confA stBr (by decide)⟩

end TapPlugin
